import Mathlib

/-!
Verification development for the blockchain event-history service
(`src/blockchain/services.py`, `src/blockchain/abi_service.py`,
`src/blockchain/usecases.py`, `src/core/redis/providers.py`).

The Python code is shallowly embedded: asynchronous I/O collaborators
(the web3 chain client, the explorer HTTP API, Redis) are modelled as
deterministic oracle functions supplied as parameters, a raised
exception at an oracle boundary is modelled as `Option.none` /
`Except.error`, and the cooperative single-query execution is modelled
as a sequential state-passing loop (the code gathers each batch of
chunk tasks and only then inspects the results, so the sequential model
observes exactly the per-batch result lists the code observes).
Machine integers do not overflow in Python, so block numbers and
counters are `Nat`.  Byte strings (topic hashes, log data, transaction
hashes) are carried as their hex renderings, so Python's `.hex()` is
the identity in the model.
-/

/-- Result of one Python value in a decoded event argument mapping,
mirroring the dynamic values that `Web3Service._serialize_value`
dispatches on (bytes carried as hex strings; floats, which no claim
touches, are folded into `vOther`). -/
inductive PyVal where
  | vBytes (s : String)
  | vStr (s : String)
  | vInt (n : Int)
  | vBool (b : Bool)
  | vNone
  | vList (l : List PyVal)
  | vDict (l : List (String × PyVal))
  | vOther (repr : String)

mutual

/-- Embedding of `Web3Service._serialize_value` (services.py lines
391-412): bytes render as hex strings (identity here since bytes are
carried as hex), lists/dicts recurse, primitive scalars pass through,
anything else renders via `str`. -/
def serializeValue : PyVal → PyVal
  | .vBytes s => .vStr s
  | .vStr s => .vStr s
  | .vInt n => .vInt n
  | .vBool b => .vBool b
  | .vNone => .vNone
  | .vList l => .vList (serializeList l)
  | .vDict l => .vDict (serializeAssoc l)
  | .vOther r => .vStr r

/-- Elementwise serialization of a Python list/tuple. -/
def serializeList : List PyVal → List PyVal
  | [] => []
  | v :: l => serializeValue v :: serializeList l

/-- Valuewise serialization of a Python dict. -/
def serializeAssoc : List (String × PyVal) → List (String × PyVal)
  | [] => []
  | kv :: l => (kv.1, serializeValue kv.2) :: serializeAssoc l

end

/-- Raw log entry as returned by `web3.eth.get_logs` (and as cached by
`_fetch_logs_chunk`): topic hashes and data carried as hex strings. -/
structure RawLog where
  address : String
  topics : List String
  data : String
  blockNumber : Nat
  transactionHash : String
  logIndex : Nat
deriving DecidableEq, Repr

/-- Embedding of `ContractEventEntity` (entities.py), the decoded event
record produced by `Web3Service.get_contract_events`. -/
structure ContractEventEntity where
  transaction_hash : String
  block_number : Nat
  log_index : Nat
  event_name : String
  args : List (String × PyVal)
  address : String
  network : String

/-- One ABI entry, keeping only the fields the code reads: `item.get('type')`
and whether / what `item['name']` is. -/
structure AbiItem where
  type : Option String
  name : Option String
deriving DecidableEq, Repr

/-- Outcome of fetching one chunk, the result `asyncio.gather(...,
return_exceptions=True)` records for one `_fetch_logs_chunk` task:
`none` is a raised exception, `some logs` is a successful log list
(cache hits and the chunk-cache behaviour inside `_fetch_logs_chunk`
are absorbed into this deterministic per-range oracle). -/
abbrev ChunkResult := Option (List RawLog)

/-- Instrumentation record: one chunk task created by the planning
loop, with the chunk range and the value of `skip_multiplier` at the
moment the task was created (services.py lines 209-218). -/
structure ChunkCreate where
  start : Nat
  stop : Nat
  skip : Nat
deriving DecidableEq, Repr

/-- Instrumentation record: one completed mid-loop batch, with whether
any successful chunk of the batch was non-empty, and the values of
`skip_multiplier` and `empty_chunks_in_row` right after the adaptive
update (services.py lines 169-207). -/
structure BatchDone where
  hadHit : Bool
  skipAfter : Nat
  emptyAfter : Nat
deriving DecidableEq, Repr

/-- Mutable state of the chunk-planning loop in
`Web3Service.get_contract_events` (services.py lines 149-224), plus the
two instrumentation traces (which no computation reads back). -/
structure FetchState where
  currentPos : Nat
  batchTasks : List (Nat × Nat)
  emptyInRow : Nat
  skip : Nat
  results : List ChunkResult
  createTrace : List ChunkCreate
  batchTrace : List BatchDone
deriving Repr

/-- Chunk span: `chunk_size = 2000` (services.py line 144). -/
def chunkSize : Nat := 2000

/-- Batch size: `batch_size = 100` (services.py line 149). -/
def batchSize : Nat := 100

/-- Test `len(result) == 0` on a non-exception result. -/
def isEmptyRes : ChunkResult → Bool
  | some [] => true
  | _ => false

/-- Test that a result is a successful, non-empty log list. -/
def isHitRes : ChunkResult → Bool
  | some (_ :: _) => true
  | _ => false

/-- Test `not isinstance(result, Exception)`. -/
def isOkRes : ChunkResult → Bool
  | some _ => true
  | _ => false

/-- Embedding of one mid-loop batch gather plus the adaptive-stride
update (services.py lines 164-207): gather the pending tasks, count
empty/hit/successful results, extend `chunks_results`, and either grow
`empty_chunks_in_row` (doubling `skip_multiplier`, capped at 10, once
the count reaches 50) when every successful chunk was empty, or reset
both to the initial values otherwise. -/
def processBatch (fetch : Nat → Nat → ChunkResult) (st : FetchState) : FetchState :=
  let rs := st.batchTasks.map (fun c => fetch c.1 c.2)
  let bEmpty := (rs.filter isEmptyRes).length
  let bHit := (rs.filter isHitRes).length
  let bOk := (rs.filter isOkRes).length
  let pair :=
    if bEmpty = bOk ∧ 0 < bEmpty then
      let e := st.emptyInRow + bEmpty
      (e, if 50 ≤ e then min (st.skip * 2) 10 else st.skip)
    else (0, 1)
  { st with
    results := st.results ++ rs
    batchTasks := []
    emptyInRow := pair.1
    skip := pair.2
    batchTrace := st.batchTrace ++ [⟨0 < bHit, pair.2, pair.1⟩] }

/-- Embedding of the after-loop gather of the final partial batch
(services.py lines 221-238), which extends `chunks_results` but never
touches the adaptive counters. -/
def processFinal (fetch : Nat → Nat → ChunkResult) (st : FetchState) : FetchState :=
  if st.batchTasks.isEmpty then st
  else
    { st with
      results := st.results ++ st.batchTasks.map (fun c => fetch c.1 c.2)
      batchTasks := [] }

/-- Embedding of the `while current_pos <= current_block` planning loop
(services.py lines 163-224), fuelled to stay structurally recursive:
each iteration first gathers a full pending batch, then creates the
task for `[current_pos, min(current_pos + chunk_size - 1, head)]` and
advances `current_pos` by `chunk_size * skip_multiplier`; when the loop
condition fails the final partial batch is gathered.  `none` means the
fuel ran out before the loop finished. -/
def fetchLoopAux (fetch : Nat → Nat → ChunkResult) (head : Nat) :
    Nat → FetchState → Option FetchState
  | 0, _ => none
  | fuel + 1, st =>
    if st.currentPos ≤ head then
      let st1 := if batchSize ≤ st.batchTasks.length then processBatch fetch st else st
      let stop := min (st1.currentPos + chunkSize - 1) head
      fetchLoopAux fetch head fuel
        { st1 with
          batchTasks := st1.batchTasks ++ [(st1.currentPos, stop)]
          createTrace := st1.createTrace ++ [⟨st1.currentPos, stop, st1.skip⟩]
          currentPos := st1.currentPos + chunkSize * st1.skip }
    else some (processFinal fetch st)

/-- Initial loop state (services.py lines 150-161). -/
def initState (fromBlock : Nat) : FetchState :=
  ⟨fromBlock, [], 0, 1, [], [], []⟩

/-- Run the whole chunk-fetch phase of `get_contract_events` from
`from_block` against chain head `head`. -/
def runFetchLoop (fetch : Nat → Nat → ChunkResult) (fromBlock head fuel : Nat) :
    Option FetchState :=
  fetchLoopAux fetch head fuel (initState fromBlock)

/-- Default for `event_abi['name']`-style direct dict access, which the
code only performs on items whose presence of `name` is guarded
upstream (see `getContractEvents`). -/
def nameD (a : AbiItem) : String := a.name.getD ""

/-- Embedding of the first-match scan over `event_abis` in the decode
loop (services.py lines 264-280): walk the event ABI entries in order;
an entry whose `event_signature_hash` attribute resolves (oracle
`sigHash`, `none` when `getattr`/`hasattr` fails) and equals the log's
first topic is the match; otherwise keep scanning. -/
def findMatch (sigHash : String → Option String) (topic0 : String) :
    List AbiItem → Option AbiItem
  | [] => none
  | a :: rest =>
    match sigHash (nameD a) with
    | some h => if h = topic0 then some a else findMatch sigHash topic0 rest
    | none => findMatch sigHash topic0 rest

/-- Fallback argument mapping for unknown / undecodable logs
(services.py lines 276-279 and 285-289): exactly the keys `topics`
(list of topic hex strings) and `data` (hex string, `0x` when the data
bytes are empty i.e. falsy). -/
def fallbackArgs (log : RawLog) : List (String × PyVal) :=
  [("topics", .vList (log.topics.map .vStr)),
   ("data", .vStr (if log.data = "" then "0x" else log.data))]

/-- Embedding of the per-log decode (services.py lines 257-301).
`procLog` is the oracle for `event.process_log(log)` keyed by the event
name: `none` is a raised decode exception, `some (nm, args)` is the
decoded dict with `decoded['event'] = nm` and `decoded['args'] = args`.
A log with no topics, or whose first topic matches no known signature
hash, or whose decode raises, keeps the sentinel name `UnknownEvent`
and receives the fallback argument mapping. -/
def decodeLog (sigHash : String → Option String)
    (procLog : String → RawLog → Option (String × List (String × PyVal)))
    (eventAbis : List AbiItem) (network : String) (log : RawLog) :
    ContractEventEntity :=
  let mk := fun (nm : String) (args : List (String × PyVal)) =>
    ContractEventEntity.mk log.transactionHash log.blockNumber log.logIndex
      nm args log.address network
  match log.topics with
  | [] => mk "UnknownEvent" (fallbackArgs log)
  | topic0 :: _ =>
    match findMatch sigHash topic0 eventAbis with
    | none => mk "UnknownEvent" (fallbackArgs log)
    | some a =>
      match procLog (nameD a) log with
      | none => mk "UnknownEvent" (fallbackArgs log)
      | some (nm, args) =>
        if nm = "UnknownEvent" then mk nm (fallbackArgs log)
        else mk nm (serializeAssoc args)

/-- Embedding of the result-assembly loop over `chunks_results`
(services.py lines 249-301): chunks that failed with an exception are
skipped, every log of a successful chunk is decoded in order. -/
def decodeChunks (sigHash : String → Option String)
    (procLog : String → RawLog → Option (String × List (String × PyVal)))
    (eventAbis : List AbiItem) (network : String) :
    List ChunkResult → List ContractEventEntity
  | [] => []
  | none :: rest => decodeChunks sigHash procLog eventAbis network rest
  | some logs :: rest =>
    logs.map (decodeLog sigHash procLog eventAbis network) ++
      decodeChunks sigHash procLog eventAbis network rest

/-- Sort key comparison used at services.py line 303:
`key=lambda x: (x.block_number, x.log_index)` compared
lexicographically, non-strict. -/
def eventLe (a b : ContractEventEntity) : Bool :=
  decide (a.block_number < b.block_number ∨
    (a.block_number = b.block_number ∧ a.log_index ≤ b.log_index))

/-- Insert into an already sorted list, keeping the inserted (earlier)
element before elements it ties with. -/
def insertSorted (le : ContractEventEntity → ContractEventEntity → Bool)
    (a : ContractEventEntity) : List ContractEventEntity → List ContractEventEntity
  | [] => [a]
  | b :: l => if le a b then a :: b :: l else b :: insertSorted le a l

/-- Model of `list.sort` (services.py line 303): Python's sort is
specified as a stable sort by the key, and stable insertion sort
realises exactly that specification while staying structurally
recursive. -/
def sortEvents (le : ContractEventEntity → ContractEventEntity → Bool) :
    List ContractEventEntity → List ContractEventEntity
  | [] => []
  | a :: l => insertSorted le a (sortEvents le l)

/-- Embedding of `Web3Service.get_contract_events` (services.py lines
91-308).  Oracles: `clients network` is membership in
`self.web3_clients` (`_get_client` raises otherwise), `checksum` is
`to_checksum_address` (`none` = raised), `head` is the awaited
`web3.eth.block_number`, `fetch` is the per-range outcome of
`_fetch_logs_chunk`, `sigHash`/`procLog` drive the decode.  The topic
filter built from the event ABIs only feeds `_fetch_logs_chunk` and is
absorbed into the `fetch` oracle.  `event_abi['name']` is accessed
directly by the code, so an event entry with no `name` key raises
(`none` here); `none` also covers fuel exhaustion of the loop model. -/
def getContractEvents (clients : String → Bool) (checksum : String → Option String)
    (fetch : Nat → Nat → ChunkResult) (sigHash : String → Option String)
    (procLog : String → RawLog → Option (String × List (String × PyVal)))
    (contractAddress : String) (fromBlock : Nat) (network : String)
    (contractAbi : List AbiItem) (head fuel : Nat) :
    Option (List ContractEventEntity) :=
  if clients network then
    match checksum contractAddress with
    | none => none
    | some _ =>
      let eventAbis := contractAbi.filter (fun a => a.type = some "event")
      if eventAbis.all (fun a => a.name.isSome) then
        (runFetchLoop fetch fromBlock head fuel).map (fun st =>
          sortEvents eventLe (decodeChunks sigHash procLog eventAbis network st.results))
      else none
  else none

/-- Embedding of the `EventResponse` schema (schemas.py lines 94-120):
one event of the API response, the entity minus its network field. -/
structure EventResponse where
  transaction_hash : String
  block_number : Nat
  log_index : Nat
  event_name : String
  args : List (String × PyVal)
  address : String

/-- Embedding of the `EventsResponse` schema (schemas.py lines
123-149), the whole-query decoded response. -/
structure EventsResponse where
  contract_address : String
  from_block : Nat
  to_block : Nat
  events : List EventResponse
  network : String
  total_events : Nat

/-- Values stored in the shared key-value cache, one constructor per
cached shape: a decoded whole-query response dump (`events:` tier), a
JSON value written by the ABI tier (`abi:` tier — `get_abi` caches
whatever the explorer payload was, so this carries a general `PyVal`),
a raw chunk dict (`logs_chunk:` tier).  The Python call sites tell the
shapes apart with truthiness / `isinstance` / model validation checks,
which the matches at those sites mirror; the `model_dump` /
`EventsResponse(**cached)` round trip through JSON is the identity on
these field types and is modelled as such. -/
inductive CacheVal where
  | eventsVal (r : EventsResponse)
  | abiVal (v : PyVal)
  | logsVal (l : List RawLog)

/-- Functional model of the healthy cache store (the degraded store is
modelled separately for `CacheService`): a finite map from string keys
to cached values. -/
def Cache : Type := String → Option CacheVal

/-- Model of a successful `CacheService.set`: update the store at one
key (keys of distinct tiers never collide thanks to their distinct
literal string prefixes). -/
def cacheSet (c : Cache) (k : String) (v : CacheVal) : Cache :=
  fun k2 => if k2 = k then some v else c k2

/-- Explorer endpoint table `ABIService.EXPLORER_APIS`
(abi_service.py lines 20-23). -/
def EXPLORER_APIS (network : String) : Option String :=
  if network = "avalanche" then some "https://api.snowtrace.io/api"
  else if network = "ethereum" then some "https://api.etherscan.io/api"
  else none

/-- Proxy-marker function names (abi_service.py line 105). -/
def proxyFunctions : List String := ["implementation", "upgradeTo", "upgradeToAndCall"]

/-- Embedding of the set comprehension at abi_service.py line 106:
names of ABI items whose `type` is `function` and which carry a `name`
key (list membership below coincides with set membership). -/
def functionNames (abi : List AbiItem) : List String :=
  abi.filterMap (fun item => if item.type = some "function" then item.name else none)

/-- Embedding of `ABIService._is_proxy_abi` (abi_service.py lines
91-113): count how many proxy-marker names occur among the function
names and answer whether at least two matched. -/
def isProxyAbi (abi : List AbiItem) : Bool :=
  2 ≤ (proxyFunctions.filter (fun pf => (functionNames abi).contains pf)).length

/-- Python truthiness of a JSON value: zero, empty string/bytes, empty
list/dict, `False` and `None` are falsy. -/
def pyTruthy : PyVal → Bool
  | .vInt n => n ≠ 0
  | .vStr s => s ≠ ""
  | .vBytes s => s ≠ ""
  | .vBool b => b
  | .vNone => false
  | .vList l => ¬ l.isEmpty
  | .vDict l => ¬ l.isEmpty
  | .vOther _ => true

/-- Test for `isinstance(value, list)` on a JSON value. -/
def pyIsList : PyVal → Bool
  | .vList _ => true
  | _ => false

/-- Lookup in a parsed JSON object (`json.loads` output has unique
keys, so first match is the match). -/
def dictGet (d : List (String × PyVal)) (k : String) : Option PyVal :=
  (d.find? (fun kv => kv.1 = k)).map (fun kv => kv.2)

/-- String value of a JSON-object key: `some s` when the key is
present with a string value.  A key present with a non-string value is
conflated with a missing key; every read the code performs agrees
under this conflation (string comparisons against `'function'` /
`'event'` / marker names are `False` for non-strings, and a non-string
`item['name']` makes `getattr` raise just as a missing one raises
`KeyError`, both modelled as the raising case). -/
def dictGetStr (d : List (String × PyVal)) (k : String) : Option String :=
  match dictGet d k with
  | some (.vStr s) => some s
  | _ => none

/-- Projection of one parsed JSON object to the two fields the code
reads from an ABI entry. -/
def projAbiItem (d : List (String × PyVal)) : AbiItem :=
  ⟨dictGetStr d "type", dictGetStr d "name"⟩

/-- Walk the entries of a parsed JSON list as ABI items: `none` as
soon as an entry is not an object, since `item.get(...)` /
`item['name']` on a non-dict raises `AttributeError` / `TypeError`. -/
def pyDictItems : List PyVal → Option (List AbiItem)
  | [] => some []
  | .vDict d :: rest => (pyDictItems rest).map (fun l => projAbiItem d :: l)
  | _ => none

/-- View of a JSON value as a well-formed ABI (a list all of whose
entries are objects): what `web3.eth.contract(..., abi=...)` and the
ABI-iterating comprehensions require; `none` means they raise. -/
def pyAbiToItems : PyVal → Option (List AbiItem)
  | .vList items => pyDictItems items
  | _ => none

/-- Embedding of `ABIService._is_proxy_abi` (abi_service.py lines
91-113) over an arbitrary JSON value, as the code receives it: on a
list of objects it is `isProxyAbi` of their projections; iterating a
non-empty string/bytes/dict yields elements on which `item.get`
raises, a list with a non-object entry raises the same way, and a
non-iterable (number, bool, null) raises `TypeError` — all
`Except.error`.  An empty string/bytes/dict iterates zero items and
answers `False` (unreachable from `get_abi`, which only calls this on
truthy values). -/
def isProxyAbiPy : PyVal → Except Unit Bool
  | .vList items =>
    match pyDictItems items with
    | some l => .ok (isProxyAbi l)
    | none => .error ()
  | .vStr s => if s = "" then .ok false else .error ()
  | .vBytes s => if s = "" then .ok false else .error ()
  | .vDict d => if d.isEmpty then .ok false else .error ()
  | _ => .error ()

/-- Decoded explorer JSON envelope: `data.get("status")` and
`data.get("result")`. -/
structure ExplorerEnvelope where
  status : Option String
  result : Option String

/-- Outcome of the explorer HTTP GET in `_fetch_from_explorer`: a
raised network error, or a response carrying an HTTP status and, when
`response.json()` does not itself raise, the decoded envelope. -/
inductive ExplorerOutcome where
  | netErr
  | response (status : Nat) (body : Option ExplorerEnvelope)

/-- Truthiness of `data.get("result")`: present and non-empty. -/
def resultTruthy : Option String → Bool
  | some s => s ≠ ""
  | none => false

/-- Embedding of `ABIService._fetch_from_explorer` (abi_service.py
lines 171-215).  `http url address apiKey` is the oracle for the GET
(query parameters other than the address and key are literals), and
`parseAbi` is the oracle for `json.loads(data["result"])`: `none` is a
raised parse, `some v` is whatever JSON value the payload parsed to —
the code returns it unconditionally, with no shape check.  Every
failure path — unsupported network, network error, non-200 status,
unparsable body, non-success envelope, falsy or unparsable result —
returns the empty list value. -/
def fetchFromExplorer (http : String → String → String → ExplorerOutcome)
    (parseAbi : String → Option PyVal)
    (contractAddress network apiKey : String) : PyVal :=
  match EXPLORER_APIS network with
  | none => .vList []
  | some apiUrl =>
    match http apiUrl contractAddress apiKey with
    | .netErr => .vList []
    | .response status body =>
      if status = 200 then
        match body with
        | none => .vList []
        | some env =>
          if env.status = some "1" ∧ resultTruthy env.result then
            match env.result with
            | some s => (parseAbi s).getD (.vList [])
            | none => .vList []
          else .vList []
      else .vList []

/-- Last 40 characters of a hex string, modelling
`storage_value.hex()[-40:]` (abi_service.py line 148). -/
def hexTail40 (s : String) : String :=
  ((s.toList).drop (s.length - 40)).asString

/-- Zero address literal compared against at abi_service.py line 151. -/
def zeroAddress : String := "0x0000000000000000000000000000000000000000"

/-- Test for `hasattr(contract.functions, 'implementation')`
(abi_service.py line 161): the ABI carries a function named
`implementation`. -/
def hasImplementationFn (abi : List AbiItem) : Bool :=
  abi.any (fun a => a.type = some "function" && a.name = some "implementation")

/-- Oracles of the web3 client used by `_get_implementation_address`:
`checksum` for `to_checksum_address` (`none` = raised), `getStorage`
for the EIP-1967 slot read keyed by the checksum address (`none` =
raised; the slot constant is literal), `callImplementation` for the
zero-argument `implementation()` call (`none` = raised). -/
structure ProxyOracles where
  checksum : String → Option String
  getStorage : String → Option String
  callImplementation : String → Option String

/-- Embedding of `ABIService._get_implementation_address`
(abi_service.py lines 115-169).  The initial `to_checksum_address` sits
outside any `try`, so its failure raises past the method
(`Except.error`); the EIP-1967 storage read and the `implementation()`
call are each wrapped in `try`, their failures falling through to the
next method and finally to `None`.  The second method first constructs
a contract from the proxy ABI inside its `try`, so an ABI that is not
a list of objects makes that construction raise and the failure is
caught (`.ok none`). -/
def getImplementationAddress (o : ProxyOracles) (proxyAddress : String)
    (proxyAbi : PyVal) : Except Unit (Option String) :=
  match o.checksum proxyAddress with
  | none => .error ()
  | some ca =>
    let m1 : Option String :=
      match o.getStorage ca with
      | none => none
      | some storageValue =>
        match o.checksum ("0x" ++ hexTail40 storageValue) with
        | none => none
        | some implAddress =>
          if implAddress ≠ zeroAddress then some implAddress else none
    match m1 with
    | some implAddress => .ok (some implAddress)
    | none =>
      match pyAbiToItems proxyAbi with
      | none => .ok none
      | some items =>
        if hasImplementationFn items then .ok (o.callImplementation ca)
        else .ok none

/-- Cache key for the ABI tier: `f"abi:{network}:{contract_address.lower()}"`
(abi_service.py line 56), written with explicit concatenation. -/
def abiCacheKey (network contractAddress : String) : String :=
  "abi:" ++ network ++ ":" ++ contractAddress.toLower

/-- Cache-miss path of `ABIService.get_abi` (abi_service.py lines
65-89): fetch the payload, and when it is truthy run the proxy check —
which raises past `get_abi` on a truthy payload that is not a list of
objects (`_is_proxy_abi` iterates it), and can also raise through the
guard-free `to_checksum_address` inside `_get_implementation_address`.
A detected proxy's implementation ABI, when truthy, is cached and
returned in place of the proxy's (the code caches and returns it with
no shape check); otherwise a truthy payload is cached and returned and
a falsy payload is returned as-is, uncached. -/
def getAbiFetch (http : String → String → String → ExplorerOutcome)
    (parseAbi : String → Option PyVal) (o : ProxyOracles)
    (cache : Cache) (contractAddress network apiKey : String) :
    Except Unit PyVal × Cache :=
  let key := abiCacheKey network contractAddress
  let abi := fetchFromExplorer http parseAbi contractAddress network apiKey
  let viaProxy : Except Unit (Option PyVal) :=
    if pyTruthy abi then
      match isProxyAbiPy abi with
      | .error e => .error e
      | .ok false => .ok none
      | .ok true =>
        match getImplementationAddress o contractAddress abi with
        | .error e => .error e
        | .ok none => .ok none
        | .ok (some implAddress) =>
          let implAbi := fetchFromExplorer http parseAbi implAddress network apiKey
          if pyTruthy implAbi then .ok (some implAbi) else .ok none
    else .ok none
  match viaProxy with
  | .error e => (.error e, cache)
  | .ok (some implAbi) => (.ok implAbi, cacheSet cache key (.abiVal implAbi))
  | .ok none =>
    if pyTruthy abi then (.ok abi, cacheSet cache key (.abiVal abi))
    else (.ok abi, cache)

/-- Embedding of `ABIService.get_abi` (abi_service.py lines 29-89) over
the healthy cache model.  The cache hit test is `if cached and
isinstance(cached, list)`, so an empty cached list is falsy and misses,
and a cached non-list value misses; any other cached or missing value
runs the fetch path `getAbiFetch`. -/
def getAbi (http : String → String → String → ExplorerOutcome)
    (parseAbi : String → Option PyVal) (o : ProxyOracles)
    (cache : Cache) (contractAddress network apiKey : String) :
    Except Unit PyVal × Cache :=
  match cache (abiCacheKey network contractAddress) with
  | some (.abiVal v) =>
    if pyTruthy v && pyIsList v then (.ok v, cache)
    else getAbiFetch http parseAbi o cache contractAddress network apiKey
  | _ => getAbiFetch http parseAbi o cache contractAddress network apiKey

/-- Oracle bundle for one events query: the chain, explorer and web3
collaborators, all fixed for the duration of the query ("unchanged
chain state and explorer responses" is precisely reusing one value of
this structure). -/
structure EventsWorld where
  clients : String → Bool
  headBlock : Nat
  checksum : String → Option String
  fetch : Nat → Nat → ChunkResult
  sigHash : String → Option String
  procLog : String → RawLog → Option (String × List (String × PyVal))
  http : String → String → String → ExplorerOutcome
  parseAbi : String → Option PyVal
  getStorage : String → Option String
  callImplementation : String → Option String
  snowtraceApiKey : String
  etherscanApiKey : String

/-- Cache key of the decoded-response tier:
`f"events:{network}:{contract_address}:{from_block}:{current_block}"`
(usecases.py line 126), written with explicit concatenation. -/
def eventsCacheKey (network contractAddress : String) (fromBlock toBlock : Nat) : String :=
  "events:" ++ network ++ ":" ++ contractAddress ++ ":" ++
    toString fromBlock ++ ":" ++ toString toBlock

/-- Web3 oracles packaged for `_get_implementation_address`. -/
def proxyOraclesOf (w : EventsWorld) : ProxyOracles :=
  ⟨w.checksum, w.getStorage, w.callImplementation⟩

/-- Cache-miss path of `GetContractEventsUseCase.__call__` (usecases.py
lines 132-165): resolve the ABI, fetch and decode the events, assemble
the response and store it under the decoded-response key as the final
action.  `get_abi` can hand back a JSON value that is not a list of
objects (a falsy junk payload, or a junk implementation ABI); such a
value makes `get_contract_events` raise at
`web3.eth.contract(..., abi=...)` / its ABI-iterating comprehension
(services.py lines 122-123), which the `pyAbiToItems` guard models
before invoking the well-formed-ABI embedding. -/
def getEventsCompute (w : EventsWorld) (cache : Cache) (contractAddress : String)
    (fromBlock : Nat) (network : String) (fuel : Nat) :
    Option (EventsResponse × Bool) × Cache :=
  let apiKey := if network = "avalanche" then w.snowtraceApiKey else w.etherscanApiKey
  match getAbi w.http w.parseAbi (proxyOraclesOf w) cache contractAddress network apiKey with
  | (.error _, c1) => (none, c1)
  | (.ok abiPayload, c1) =>
    match pyAbiToItems abiPayload with
    | none => (none, c1)
    | some abi =>
      match getContractEvents w.clients w.checksum w.fetch w.sigHash w.procLog
          contractAddress fromBlock network abi w.headBlock fuel with
      | none => (none, c1)
      | some events =>
        let eventResponses := events.map (fun e =>
          EventResponse.mk e.transaction_hash e.block_number e.log_index
            e.event_name e.args e.address)
        let response := EventsResponse.mk contractAddress fromBlock w.headBlock
          eventResponses network eventResponses.length
        (some (response, false),
          cacheSet c1 (eventsCacheKey network contractAddress fromBlock w.headBlock)
            (.eventsVal response))

/-- Embedding of `GetContractEventsUseCase.__call__` (usecases.py lines
100-165): resolve the client (raises on unsupported network), snapshot
the head block, consult the decoded-response cache (`if cached:` — a
truthy cached value of the wrong shape makes `EventsResponse(**cached)`
raise, a falsy cached value misses), else run the miss path
`getEventsCompute`: resolve the ABI, fetch and decode the events,
assemble the response and cache it.  The returned `Bool` is
instrumentation: `true` when the response was served from the cache.
`none` models a raised exception (or exhausted loop fuel). -/
def getEventsUseCase (w : EventsWorld) (cache : Cache) (contractAddress : String)
    (fromBlock : Nat) (network : String) (fuel : Nat) :
    Option (EventsResponse × Bool) × Cache :=
  if w.clients network then
    match cache (eventsCacheKey network contractAddress fromBlock w.headBlock) with
    | some (.eventsVal r) => (some (r, true), cache)
    | some (.abiVal v) =>
      if pyTruthy v then (none, cache)
      else getEventsCompute w cache contractAddress fromBlock network fuel
    | some (.logsVal _) => (none, cache)
    | none => getEventsCompute w cache contractAddress fromBlock network fuel
  else (none, cache)

/-- Outcome of one call against the raw Redis client: the value, or a
raised exception (connection failure, timeout, protocol error). -/
inductive RedisResult (α : Type) where
  | ok (val : α)
  | err
deriving DecidableEq, Repr

/-- Oracles of the degradable substrate under `CacheService`
(providers.py): the raw Redis `get` / `setex` calls and the
`json.loads` / `json.dumps` steps, each able to fail (`err` / `none` =
raised). -/
structure RedisModel where
  rget : String → RedisResult (Option String)
  rsetex : String → Nat → String → RedisResult Unit
  jloads : String → Option PyVal
  jdumps : PyVal → Option String

/-- Embedding of `CacheService.get` (providers.py lines 66-86): the
whole body sits in `try/except Exception: pass`, so a raised Redis read
or a raised JSON parse yields `None`; a missing or falsy (empty-string)
value also yields `None`. -/
def cacheServiceGet (m : RedisModel) (key : String) : Option PyVal :=
  match m.rget key with
  | .err => none
  | .ok none => none
  | .ok (some v) => if v = "" then none else m.jloads v

/-- Embedding of `CacheService.set` (providers.py lines 88-114): a
raised `json.dumps` or a raised `setex` is swallowed and reported as
`False`; only a completed `setex` reports `True`. -/
def cacheServiceSet (m : RedisModel) (key : String) (value : PyVal) (ttl : Nat) : Bool :=
  match m.jdumps value with
  | none => false
  | some s =>
    match m.rsetex key ttl s with
    | .ok _ => true
    | .err => false

/-- Invariant of the planning loop: the multiplier is within `[1, 10]`,
every settled or pending chunk is accounted for against the creation
trace, every recorded multiplier is within `[1, 10]`, and every
completed batch that contained a hit recorded a reset. -/
def InvState (st : FetchState) : Prop :=
  1 ≤ st.skip ∧ st.skip ≤ 10 ∧
  st.results.length + st.batchTasks.length = st.createTrace.length ∧
  (∀ e ∈ st.batchTrace,
    (1 ≤ e.skipAfter ∧ e.skipAfter ≤ 10) ∧
    (e.hadHit = true → e.skipAfter = 1 ∧ e.emptyAfter = 0)) ∧
  (∀ e ∈ st.createTrace, 1 ≤ e.skip ∧ e.skip ≤ 10)

/-- The creation trace, read from position `p`, is a chain: each chunk
starts exactly at the running position (which is at most `head`), stops
at `min (start + chunkSize - 1) head`, and the position advances by
`chunkSize * skip`. -/
def chainedFrom (head : Nat) : Nat → List ChunkCreate → Prop
  | _, [] => True
  | p, c :: rest =>
    p ≤ head ∧ c.start = p ∧ c.stop = min (p + chunkSize - 1) head ∧ 1 ≤ c.skip ∧
    chainedFrom head (p + chunkSize * c.skip) rest

/-- Position reached after walking a creation trace from `p`. -/
def endPos : Nat → List ChunkCreate → Nat
  | p, [] => p
  | p, c :: rest => endPos (p + chunkSize * c.skip) rest

/-- Chunk-fetch oracle on a chain segment with no logs at all. -/
def fetchAllEmpty : Nat → Nat → ChunkResult := fun _ _ => some []

/-- Fetch oracle for the C4 witness: the single planned chunk returns
one log, so the final batch is non-empty and settles successfully. -/
def c4WitnessLog : RawLog := ⟨"0xc4", ["0xaaaa"], "0x01", 5, "0xt4", 0⟩

/-- Fetch oracle returning one fixed log for every range. -/
def fetchOneLog : Nat → Nat → ChunkResult := fun _ _ => some [c4WitnessLog]

/-- Fetch oracle for the C5 witness: the first chunk raises, the second
succeeds with one log. -/
def fetchFirstFails : Nat → Nat → ChunkResult :=
  fun s _ => if s = 1 then none else some [c4WitnessLog]

/-- Membership oracle for `self.web3_clients`: every network supported. -/
def clientsAll : String → Bool := fun _ => true

/-- Checksum oracle that succeeds on every address. -/
def checksumId : String → Option String := fun s => some s

/-- Two logs returned out of block order inside one chunk. -/
def c2LogLater : RawLog := ⟨"0xc2", [], "", 2, "0xtb", 0⟩

/-- The earlier of the two C2 witness logs. -/
def c2LogEarlier : RawLog := ⟨"0xc2", [], "", 1, "0xta", 0⟩

/-- Fetch oracle handing back the two C2 witness logs in reverse
order. -/
def fetchUnordered : Nat → Nat → ChunkResult := fun _ _ => some [c2LogLater, c2LogEarlier]

/-- A raw log whose only topic matches no signature (there are no event
ABIs at all here). -/
def c3Log : RawLog := ⟨"0xc3", ["0xbeef"], "", 7, "0xt3", 0⟩

/-- Claim-side reading of "the marker name appears among the
interface's function entries". -/
def markerAppears (abi : List AbiItem) (pf : String) : Prop :=
  ∃ item ∈ abi, item.type = some "function" ∧ item.name = some pf

instance (abi : List AbiItem) (pf : String) : Decidable (markerAppears abi pf) := by
  unfold markerAppears
  infer_instance

/-- Claim-side count of how many of the three marker names appear. -/
def markerCount (abi : List AbiItem) : Nat :=
  (proxyFunctions.filter (fun pf => decide (markerAppears abi pf))).length

/-- An interface with exactly the functions `implementation` and
`upgradeTo`. -/
def proxyTwoMarkers : List AbiItem :=
  [⟨some "function", some "implementation"⟩, ⟨some "function", some "upgradeTo"⟩]

/-- An interface with only the function `implementation`. -/
def proxyOneMarker : List AbiItem := [⟨some "function", some "implementation"⟩]

/-- Enumerated failure modes of the explorer lookup for one contract on
one network, as listed by the claim: no configured endpoint, network
error, non-success HTTP status, unparsable body, failure envelope
(status not "1"), missing/empty result, unparsable result payload. -/
def explorerFetchFails (http : String → String → String → ExplorerOutcome)
    (parseAbi : String → Option PyVal)
    (network contractAddress apiKey : String) : Prop :=
  EXPLORER_APIS network = none ∨
  ∃ url, EXPLORER_APIS network = some url ∧
    (http url contractAddress apiKey = .netErr ∨
     (∃ status body, http url contractAddress apiKey = .response status body ∧
       status ≠ 200) ∨
     http url contractAddress apiKey = .response 200 none ∨
     ∃ env, http url contractAddress apiKey = .response 200 (some env) ∧
       (env.status ≠ some "1" ∨ env.result = none ∨ env.result = some "" ∨
        ∃ s, env.result = some s ∧ parseAbi s = none))

/-- Explorer oracle that always raises a network error. -/
def httpAlwaysErr : String → String → String → ExplorerOutcome := fun _ _ _ => .netErr

/-- Explorer oracle answering every GET with a success envelope whose
result payload is the JSON text of the number 5. -/
def httpIntPayload : String → String → String → ExplorerOutcome :=
  fun _ _ _ => .response 200 (some ⟨some "1", some "5"⟩)

/-- Parser oracle for that payload: `json.loads("5")` succeeds and
yields the JSON number 5. -/
def parseIntPayload : String → Option PyVal := fun _ => some (.vInt 5)

/-- Result-payload parser that always raises. -/
def parseAbiNone : String → Option PyVal := fun _ => none

/-- Proxy oracles for witnesses: checksum succeeds, storage read and
implementation call raise. -/
def proxyOraclesTrivial : ProxyOracles := ⟨fun s => some s, fun _ => none, fun _ => none⟩

/-- The empty cache store. -/
def emptyCache : Cache := fun _ => none

/-- World for the C8 witness: every network supported, head block 1,
no logs, explorer unreachable. -/
def trivialWorld : EventsWorld :=
  ⟨clientsAll, 1, checksumId, fetchAllEmpty, fun _ => none, fun _ _ => none,
    httpAlwaysErr, parseAbiNone, fun _ => none, fun _ => none, "sk", "ek"⟩

/-- The response the C8 witness world produces on a miss. -/
def c8Response : EventsResponse := ⟨"0xaa", 1, 1, [], "avalanche", 0⟩

/-- One log sitting in block 120500, inside the 61st chunk of the C9
counterexample scenario. -/
def c9CexLog : RawLog := ⟨"0xc9", ["0xaaaa"], "0x01", 120500, "0xt9", 0⟩

/-- Fetch oracle observing 60 consecutive empty chunks followed by one
non-empty chunk over `[1, 122000]`. -/
def c9CexFetch : Nat → Nat → ChunkResult :=
  fun s _ => if s = 120001 then some [c9CexLog] else some []

/-- One log sitting in block 200500, inside the 101st chunk of the C9
amended scenario. -/
def c9HitLog : RawLog := ⟨"0xc9", ["0xaaaa"], "0x01", 200500, "0xta9", 0⟩

/-- Fetch oracle observing 100 consecutive empty chunks (one full
batch), then a non-empty chunk at `[200001, 202000]`, then empty
chunks again, over `[1, 602000]`. -/
def c9HitFetch : Nat → Nat → ChunkResult :=
  fun s _ => if s = 200001 then some [c9HitLog] else some []

/-- Fully degraded substrate: every Redis call and every JSON step
raises. -/
def redisDown : RedisModel :=
  ⟨fun _ => .err, fun _ _ _ => .err, fun _ => none, fun _ => none⟩

theorem processBatch_currentPos (f : Nat → Nat → ChunkResult) (st : FetchState) :
    (processBatch f st).currentPos = st.currentPos := rfl

theorem processBatch_createTrace (f : Nat → Nat → ChunkResult) (st : FetchState) :
    (processBatch f st).createTrace = st.createTrace := rfl

theorem processFinal_createTrace (f : Nat → Nat → ChunkResult) (st : FetchState) :
    (processFinal f st).createTrace = st.createTrace := by
  unfold processFinal
  split <;> rfl

/-- Successful results split into empty ones and hits. -/
theorem length_filter_ok (rs : List ChunkResult) :
    (rs.filter isOkRes).length =
      (rs.filter isEmptyRes).length + (rs.filter isHitRes).length := by
  induction rs with
  | nil => rfl
  | cons r rest ih =>
    match r with
    | none => simpa [isOkRes, isEmptyRes, isHitRes] using ih
    | some [] => simp [isOkRes, isEmptyRes, isHitRes, ih]; omega
    | some (l :: ls) => simp [isOkRes, isEmptyRes, isHitRes, ih]; omega

theorem processBatch_skip_pos (f : Nat → Nat → ChunkResult) (st : FetchState)
    (h : 1 ≤ st.skip) : 1 ≤ (processBatch f st).skip := by
  unfold processBatch
  dsimp only
  split <;> dsimp only
  · split <;> omega
  · omega

theorem processBatch_skip_le (f : Nat → Nat → ChunkResult) (st : FetchState)
    (h : st.skip ≤ 10) : (processBatch f st).skip ≤ 10 := by
  unfold processBatch
  dsimp only
  split <;> dsimp only
  · split <;> omega
  · omega

/-- A mid-loop batch containing at least one non-empty successful chunk
resets the multiplier and the empty counter. -/
theorem processBatch_reset (f : Nat → Nat → ChunkResult) (st : FetchState)
    (h : 0 < ((st.batchTasks.map (fun c => f c.1 c.2)).filter isHitRes).length) :
    (processBatch f st).skip = 1 ∧ (processBatch f st).emptyInRow = 0 := by
  have hsum := length_filter_ok (st.batchTasks.map (fun c => f c.1 c.2))
  unfold processBatch
  dsimp only
  split
  · next hc => omega
  · exact ⟨rfl, rfl⟩

/-- The batch-trace entry appended by `processBatch` records the
post-update multiplier and counter, and whether the batch had a hit. -/
theorem processBatch_batchTrace (f : Nat → Nat → ChunkResult) (st : FetchState) :
    (processBatch f st).batchTrace = st.batchTrace ++
      [⟨0 < ((st.batchTasks.map (fun c => f c.1 c.2)).filter isHitRes).length,
        (processBatch f st).skip, (processBatch f st).emptyInRow⟩] := rfl

theorem processBatch_results_len (f : Nat → Nat → ChunkResult) (st : FetchState) :
    (processBatch f st).results.length = st.results.length + st.batchTasks.length := by
  unfold processBatch
  dsimp only
  simp

theorem processBatch_batchTasks (f : Nat → Nat → ChunkResult) (st : FetchState) :
    (processBatch f st).batchTasks = [] := rfl

theorem processBatch_inv (f : Nat → Nat → ChunkResult) (st : FetchState)
    (h : InvState st) : InvState (processBatch f st) := by
  obtain ⟨h1, h2, h3, h4, h5⟩ := h
  have hp1 := processBatch_skip_pos f st h1
  have hp2 := processBatch_skip_le f st h2
  refine ⟨hp1, hp2, ?_, ?_, ?_⟩
  · rw [processBatch_results_len, processBatch_batchTasks, processBatch_createTrace]
    simpa using h3
  · intro e he
    rw [processBatch_batchTrace] at he
    rcases List.mem_append.mp he with hl | hr
    · exact h4 e hl
    · have : e = ⟨0 < ((st.batchTasks.map (fun c => f c.1 c.2)).filter isHitRes).length,
          (processBatch f st).skip, (processBatch f st).emptyInRow⟩ := by
        simpa using hr
      subst this
      refine ⟨⟨hp1, hp2⟩, ?_⟩
      intro hh
      exact processBatch_reset f st (by simpa using of_decide_eq_true hh)
  · rw [processBatch_createTrace]
    exact h5

theorem processFinal_inv (f : Nat → Nat → ChunkResult) (st : FetchState)
    (h : InvState st) : InvState (processFinal f st) := by
  obtain ⟨h1, h2, h3, h4, h5⟩ := h
  unfold processFinal
  split
  · exact ⟨h1, h2, h3, h4, h5⟩
  · refine ⟨h1, h2, ?_, h4, h5⟩
    simpa using h3

/-- The planning loop preserves the invariant. -/
theorem fetchLoopAux_inv (f : Nat → Nat → ChunkResult) (head : Nat) :
    ∀ (fuel : Nat) (st st' : FetchState),
      fetchLoopAux f head fuel st = some st' → InvState st → InvState st'
  | 0, _, _, hrun, _ => by simp [fetchLoopAux] at hrun
  | fuel + 1, st, st', hrun, hinv => by
    rw [fetchLoopAux] at hrun
    split at hrun
    · set st1 := if batchSize ≤ st.batchTasks.length then processBatch f st else st with hst1
      have hinv1 : InvState st1 := by
        rw [hst1]
        split
        · exact processBatch_inv f st hinv
        · exact hinv
      refine fetchLoopAux_inv f head fuel _ st' hrun ?_
      obtain ⟨h1, h2, h3, h4, h5⟩ := hinv1
      refine ⟨h1, h2, ?_, h4, ?_⟩
      · simp only [List.length_append, List.length_cons, List.length_nil]
        omega
      · intro e he
        rcases (by simpa using he :
            e ∈ st1.createTrace ∨
              e = ⟨st1.currentPos, min (st1.currentPos + chunkSize - 1) head, st1.skip⟩) with hl | hr
        · exact h5 e hl
        · subst hr
          exact ⟨h1, h2⟩
    · cases hrun
      exact processFinal_inv f st hinv

/-- The loop invariant holds of the initial state. -/
theorem initState_inv (fromBlock : Nat) : InvState (initState fromBlock) := by
  refine ⟨by simp [initState], by simp [initState], by simp [initState], ?_, ?_⟩ <;>
    intro e he <;> simp [initState] at he

/-- The planning loop extends the creation trace by a chain starting at
the current position and walks it past `head`. -/
theorem fetchLoopAux_chain (f : Nat → Nat → ChunkResult) (head : Nat) :
    ∀ (fuel : Nat) (st st' : FetchState),
      fetchLoopAux f head fuel st = some st' → 1 ≤ st.skip →
      ∃ t, st'.createTrace = st.createTrace ++ t ∧
        chainedFrom head st.currentPos t ∧ head < endPos st.currentPos t
  | 0, _, _, hrun, _ => by simp [fetchLoopAux] at hrun
  | fuel + 1, st, st', hrun, hskip => by
    rw [fetchLoopAux] at hrun
    split at hrun
    · next hle =>
      set st1 := if batchSize ≤ st.batchTasks.length then processBatch f st else st with hst1
      have hpos1 : st1.currentPos = st.currentPos := by
        rw [hst1]; split
        · exact processBatch_currentPos f st
        · rfl
      have htr1 : st1.createTrace = st.createTrace := by
        rw [hst1]; split
        · exact processBatch_createTrace f st
        · rfl
      have hskip1 : 1 ≤ st1.skip := by
        rw [hst1]; split
        · exact processBatch_skip_pos f st hskip
        · exact hskip
      obtain ⟨t2, ht2, hch2, hend2⟩ := fetchLoopAux_chain f head fuel _ st' hrun hskip1
      refine ⟨⟨st1.currentPos, min (st1.currentPos + chunkSize - 1) head, st1.skip⟩ :: t2,
        ?_, ?_, ?_⟩
      · simp only at ht2
        rw [ht2, htr1, hpos1]
        simp
      · refine ⟨by omega, by rw [hpos1], by rw [hpos1], hskip1, ?_⟩
        simpa [hpos1] using hch2
      · simpa [endPos, hpos1] using hend2
    · next hgt =>
      cases hrun
      refine ⟨[], by simp [processFinal_createTrace], trivial, ?_⟩
      simp only [endPos]
      omega

/-- Every entry of a chain starts at or after the chain's origin. -/
theorem chainedFrom_start_ge (head : Nat) :
    ∀ (t : List ChunkCreate) (p : Nat), chainedFrom head p t → ∀ e ∈ t, p ≤ e.start
  | [], _, _, e, he => by simp at he
  | c :: rest, p, ⟨_, hs, _, hk, hrest⟩, e, he => by
    rcases List.mem_cons.mp he with rfl | hm
    · omega
    · have := chainedFrom_start_ge head rest (p + chunkSize * c.skip) hrest e hm
      have : chunkSize = 2000 := rfl
      omega

/-- Every entry of a chain starts within `head` and stops at
`min (start + chunkSize - 1) head`. -/
theorem chainedFrom_entry (head : Nat) :
    ∀ (t : List ChunkCreate) (p : Nat), chainedFrom head p t →
      ∀ e ∈ t, e.start ≤ head ∧ e.stop = min (e.start + chunkSize - 1) head
  | [], _, _, e, he => by simp at he
  | c :: rest, p, ⟨hph, hs, hst, hk, hrest⟩, e, he => by
    rcases List.mem_cons.mp he with rfl | hm
    · constructor
      · omega
      · rw [hst, hs]
    · exact chainedFrom_entry head rest (p + chunkSize * c.skip) hrest e hm

/-- Chain entries are pairwise disjoint, in order. -/
theorem chainedFrom_pairwise (head : Nat) :
    ∀ (t : List ChunkCreate) (p : Nat), chainedFrom head p t →
      t.Pairwise (fun a b => a.stop < b.start)
  | [], _, _ => List.Pairwise.nil
  | c :: rest, p, ⟨hph, hs, hst, hk, hrest⟩ => by
    refine List.Pairwise.cons ?_ (chainedFrom_pairwise head rest _ hrest)
    intro b hb
    have hbge := chainedFrom_start_ge head rest _ hrest b hb
    have hmul : 2000 * 1 ≤ chunkSize * c.skip := Nat.mul_le_mul (by rfl) hk
    have hcs : chunkSize = 2000 := rfl
    omega

/-- When every recorded multiplier is 1, the chain's chunks cover every
block from the origin up to `head` with no gap. -/
theorem chainedFrom_cover (head : Nat) :
    ∀ (t : List ChunkCreate) (p : Nat), chainedFrom head p t →
      (∀ e ∈ t, e.skip = 1) → head < endPos p t →
      ∀ b, p ≤ b → b ≤ head → ∃ e ∈ t, e.start ≤ b ∧ b ≤ e.stop
  | [], p, _, _, hend, b, hpb, hbh => by
    simp only [endPos] at hend
    omega
  | c :: rest, p, ⟨hph, hs, hst, hk, hrest⟩, hone, hend, b, hpb, hbh => by
    have hcs : chunkSize = 2000 := rfl
    have hc1 : c.skip = 1 := hone c (List.mem_cons_self c rest)
    have hmul : chunkSize * c.skip = 2000 := by rw [hc1, hcs]
    by_cases hble : b ≤ min (p + chunkSize - 1) head
    · exact ⟨c, List.mem_cons_self c rest, by omega, by omega⟩
    · have hrec := chainedFrom_cover head rest (p + chunkSize * c.skip)
        hrest (fun e he => hone e (List.mem_cons_of_mem c he))
        (by simpa [endPos] using hend) b (by omega) hbh
      obtain ⟨e, he, h1, h2⟩ := hrec
      exact ⟨e, List.mem_cons_of_mem c he, h1, h2⟩

theorem mem_insertSorted (le : ContractEventEntity → ContractEventEntity → Bool)
    (a x : ContractEventEntity) :
    ∀ l : List ContractEventEntity, x ∈ insertSorted le a l ↔ x = a ∨ x ∈ l
  | [] => by simp [insertSorted]
  | b :: l => by
    unfold insertSorted
    split
    · simp [List.mem_cons]
    · simp only [List.mem_cons, mem_insertSorted le a x l]
      tauto

theorem pairwise_insertSorted (le : ContractEventEntity → ContractEventEntity → Bool)
    (htrans : ∀ a b c, le a b = true → le b c = true → le a c = true)
    (htot : ∀ a b, le a b || le b a) (a : ContractEventEntity) :
    ∀ l : List ContractEventEntity, l.Pairwise (fun x y => le x y = true) →
      (insertSorted le a l).Pairwise (fun x y => le x y = true)
  | [], _ => by simp [insertSorted]
  | b :: l, h => by
    obtain ⟨hb, hl⟩ := List.pairwise_cons.mp h
    unfold insertSorted
    split
    · next hab =>
      refine List.pairwise_cons.mpr ⟨?_, h⟩
      intro y hy
      rcases List.mem_cons.mp hy with rfl | hm
      · exact hab
      · exact htrans a b y hab (hb y hm)
    · next hab =>
      refine List.pairwise_cons.mpr
        ⟨?_, pairwise_insertSorted le htrans htot a l hl⟩
      intro y hy
      rcases (mem_insertSorted le a y l).mp hy with hya | hm
      · rw [hya]
        have := htot a b
        simp only [Bool.or_eq_true] at this
        rcases this with h1 | h2
        · exact absurd h1 hab
        · exact h2
      · exact hb y hm

/-- The sort at the end of `get_contract_events` produces a list sorted
under its comparison. -/
theorem pairwise_sortEvents (le : ContractEventEntity → ContractEventEntity → Bool)
    (htrans : ∀ a b c, le a b = true → le b c = true → le a c = true)
    (htot : ∀ a b, le a b || le b a) :
    ∀ l : List ContractEventEntity,
      (sortEvents le l).Pairwise (fun x y => le x y = true)
  | [] => List.Pairwise.nil
  | a :: l =>
    pairwise_insertSorted le htrans htot a (sortEvents le l)
      (pairwise_sortEvents le htrans htot l)

theorem eventLe_trans (a b c : ContractEventEntity) :
    eventLe a b = true → eventLe b c = true → eventLe a c = true := by
  simp only [eventLe, decide_eq_true_eq]
  omega

theorem eventLe_total (a b : ContractEventEntity) : eventLe a b || eventLe b a := by
  simp only [eventLe, Bool.or_eq_true, decide_eq_true_eq]
  omega

/-- Replacing failed chunk results by empty log lists does not change
the decoded events: a failed chunk contributes exactly what an empty
chunk contributes. -/
theorem decodeChunks_failures_as_empty (sigHash : String → Option String)
    (procLog : String → RawLog → Option (String × List (String × PyVal)))
    (eventAbis : List AbiItem) (network : String) :
    ∀ rs : List ChunkResult,
      decodeChunks sigHash procLog eventAbis network (rs.map (fun r => some (r.getD []))) =
        decodeChunks sigHash procLog eventAbis network rs
  | [] => rfl
  | none :: rest => by
    simpa [decodeChunks] using decodeChunks_failures_as_empty sigHash procLog eventAbis network rest
  | some logs :: rest => by
    simpa [decodeChunks] using decodeChunks_failures_as_empty sigHash procLog eventAbis network rest

set_option maxRecDepth 100000 in
/-- C1 — the claim as frozen is refuted by the adaptive stride: with
every chunk empty over `[1, 203000]`, the first completed batch of 100
empty chunks doubles the stride multiplier, the next chunk start skips
forward by `2 * chunk_size`, and blocks `202001..203000` (block
`202500` exhibited here) are inside `[fromBlock, headBlock]` but inside
no fetched range. -/
theorem c1_coverage_counterexample :
    (runFetchLoop fetchAllEmpty 1 203000 110).isSome = true ∧
    (1 : Nat) ≤ 202500 ∧ (202500 : Nat) ≤ 203000 ∧
    ((runFetchLoop fetchAllEmpty 1 203000 110).getD (initState 1)).createTrace.all
      (fun e => decide ¬(e.start ≤ 202500 ∧ 202500 ≤ e.stop)) = true := by
  refine ⟨by decide, by decide, by decide, by decide⟩

/-- C1 (amended) — ranges planned by the chunk loop always have span
at most `chunk_size`, stay inside `[fromBlock, head]`, and are pairwise
disjoint in order (so never overlap and are never refetched); and
whenever the stride multiplier stayed at 1 for every created chunk (as
it does until 50 consecutive empty chunks accumulate over completed
batches), the ranges exactly cover `[fromBlock, head]` with no gap.
The final, possibly shorter, range is included (it is a range of the
trace like any other, with `stop = min (start + chunkSize - 1) head`). -/
theorem c1_range_planner (fetch : Nat → Nat → ChunkResult)
    (fromBlock head fuel : Nat) (st' : FetchState)
    (hrun : runFetchLoop fetch fromBlock head fuel = some st') :
    (∀ e ∈ st'.createTrace, e.stop + 1 ≤ e.start + chunkSize) ∧
    (∀ e ∈ st'.createTrace, fromBlock ≤ e.start ∧ e.start ≤ e.stop ∧ e.stop ≤ head) ∧
    st'.createTrace.Pairwise (fun a b => a.stop < b.start) ∧
    ((∀ e ∈ st'.createTrace, e.skip = 1) →
      ∀ b, fromBlock ≤ b → b ≤ head → ∃ e ∈ st'.createTrace, e.start ≤ b ∧ b ≤ e.stop) := by
  obtain ⟨t, ht, hch, hend⟩ :=
    fetchLoopAux_chain fetch head fuel (initState fromBlock) st' hrun (by simp [initState])
  have htr : st'.createTrace = t := by simpa [initState] using ht
  have hcs : chunkSize = 2000 := rfl
  rw [htr]
  refine ⟨?_, ?_, chainedFrom_pairwise head t fromBlock hch, ?_⟩
  · intro e he
    have := (chainedFrom_entry head t fromBlock hch e he).2
    omega
  · intro e he
    have h1 := chainedFrom_start_ge head t fromBlock hch e he
    have h2 := chainedFrom_entry head t fromBlock hch e he
    omega
  · intro hone b h1 h2
    exact chainedFrom_cover head t fromBlock hch hone hend b h1 h2

/-- C1 witness — a two-chunk run over `[1, 3000]` with every chunk
empty: the amended theorem applies and yields exact coverage. -/
theorem c1_range_planner_witness :
    (∀ e ∈ ((runFetchLoop fetchAllEmpty 1 3000 10).getD (initState 1)).createTrace,
      e.stop + 1 ≤ e.start + chunkSize) ∧
    (∀ e ∈ ((runFetchLoop fetchAllEmpty 1 3000 10).getD (initState 1)).createTrace,
      1 ≤ e.start ∧ e.start ≤ e.stop ∧ e.stop ≤ 3000) ∧
    ((runFetchLoop fetchAllEmpty 1 3000 10).getD (initState 1)).createTrace.Pairwise
      (fun a b => a.stop < b.start) ∧
    ((∀ e ∈ ((runFetchLoop fetchAllEmpty 1 3000 10).getD (initState 1)).createTrace,
        e.skip = 1) →
      ∀ b, 1 ≤ b → b ≤ 3000 →
        ∃ e ∈ ((runFetchLoop fetchAllEmpty 1 3000 10).getD (initState 1)).createTrace,
          e.start ≤ b ∧ b ≤ e.stop) :=
  c1_range_planner fetchAllEmpty 1 3000 10
    ((runFetchLoop fetchAllEmpty 1 3000 10).getD (initState 1)) rfl

/-- C4 — throughout a query the stride multiplier stays within
`[1, 10]` (at the end, at every chunk creation, and after every
completed batch), and any completed batch that contained a non-empty
chunk result recorded multiplier 1 and empty-count 0 immediately after
its adaptive update, i.e. before the next chunk start is chosen. -/
theorem c4_multiplier_invariant (fetch : Nat → Nat → ChunkResult)
    (fromBlock head fuel : Nat) (st' : FetchState)
    (hrun : runFetchLoop fetch fromBlock head fuel = some st') :
    (1 ≤ st'.skip ∧ st'.skip ≤ 10) ∧
    (∀ e ∈ st'.createTrace, 1 ≤ e.skip ∧ e.skip ≤ 10) ∧
    (∀ e ∈ st'.batchTrace, 1 ≤ e.skipAfter ∧ e.skipAfter ≤ 10) ∧
    (∀ e ∈ st'.batchTrace, e.hadHit = true → e.skipAfter = 1 ∧ e.emptyAfter = 0) := by
  obtain ⟨h1, h2, h3, h4, h5⟩ :=
    fetchLoopAux_inv fetch head fuel (initState fromBlock) st' hrun (initState_inv fromBlock)
  exact ⟨⟨h1, h2⟩, h5, fun e he => (h4 e he).1, fun e he => (h4 e he).2⟩

/-- C4 witness — the invariant instantiated on a concrete completed
run. -/
theorem c4_multiplier_invariant_witness :
    (1 ≤ ((runFetchLoop fetchOneLog 1 3000 10).getD (initState 1)).skip ∧
      ((runFetchLoop fetchOneLog 1 3000 10).getD (initState 1)).skip ≤ 10) ∧
    (∀ e ∈ ((runFetchLoop fetchOneLog 1 3000 10).getD (initState 1)).createTrace,
      1 ≤ e.skip ∧ e.skip ≤ 10) ∧
    (∀ e ∈ ((runFetchLoop fetchOneLog 1 3000 10).getD (initState 1)).batchTrace,
      1 ≤ e.skipAfter ∧ e.skipAfter ≤ 10) ∧
    (∀ e ∈ ((runFetchLoop fetchOneLog 1 3000 10).getD (initState 1)).batchTrace,
      e.hadHit = true → e.skipAfter = 1 ∧ e.emptyAfter = 0) :=
  c4_multiplier_invariant fetchOneLog 1 3000 10
    ((runFetchLoop fetchOneLog 1 3000 10).getD (initState 1)) rfl

/-- A completed planning loop has settled its pending batch. -/
theorem fetchLoopAux_batchTasks_nil (f : Nat → Nat → ChunkResult) (head : Nat) :
    ∀ (fuel : Nat) (st st' : FetchState),
      fetchLoopAux f head fuel st = some st' → st'.batchTasks = []
  | 0, _, _, hrun => by simp [fetchLoopAux] at hrun
  | fuel + 1, st, st', hrun => by
    rw [fetchLoopAux] at hrun
    split at hrun
    · exact fetchLoopAux_batchTasks_nil f head fuel _ st' hrun
    · cases hrun
      unfold processFinal
      split
      · next hemp => simpa using hemp
      · rfl

/-- C5 — a failing chunk aborts neither its batch siblings nor the
query: the completed run settles exactly one result per planned chunk
(none of them missing), the decoded output equals the output with every
failed chunk replaced by an empty chunk, and no chunk range is ever
planned twice (starts strictly increase), so a failure is not retried
within the query. -/
theorem c5_partial_failures (fetch : Nat → Nat → ChunkResult)
    (fromBlock head fuel : Nat) (st' : FetchState)
    (hrun : runFetchLoop fetch fromBlock head fuel = some st')
    (sigHash : String → Option String)
    (procLog : String → RawLog → Option (String × List (String × PyVal)))
    (eventAbis : List AbiItem) (network : String) :
    st'.results.length = st'.createTrace.length ∧
    decodeChunks sigHash procLog eventAbis network st'.results =
      decodeChunks sigHash procLog eventAbis network
        (st'.results.map (fun r => some (r.getD []))) ∧
    st'.createTrace.Pairwise (fun a b => a.start < b.start) := by
  obtain ⟨h1, h2, h3, h4, h5⟩ :=
    fetchLoopAux_inv fetch head fuel (initState fromBlock) st' hrun (initState_inv fromBlock)
  have hnil := fetchLoopAux_batchTasks_nil fetch head fuel (initState fromBlock) st' hrun
  obtain ⟨t, ht, hch, hend⟩ :=
    fetchLoopAux_chain fetch head fuel (initState fromBlock) st' hrun (by simp [initState])
  have htr : st'.createTrace = t := by simpa [initState] using ht
  refine ⟨?_, (decodeChunks_failures_as_empty sigHash procLog eventAbis network st'.results).symm, ?_⟩
  · rw [hnil] at h3
    simpa using h3
  · rw [htr]
    refine (chainedFrom_pairwise head t fromBlock hch).imp_of_mem ?_
    intro a b ha hb hlt
    have h2a := chainedFrom_entry head t fromBlock hch a ha
    have hcs : chunkSize = 2000 := rfl
    omega

/-- C5 witness — the theorem instantiated on a concrete two-chunk run
whose first chunk fails. -/
theorem c5_partial_failures_witness :
    ((runFetchLoop fetchFirstFails 1 3000 10).getD (initState 1)).results.length =
      ((runFetchLoop fetchFirstFails 1 3000 10).getD (initState 1)).createTrace.length ∧
    decodeChunks (fun _ => none) (fun _ _ => none) [] "avalanche"
      ((runFetchLoop fetchFirstFails 1 3000 10).getD (initState 1)).results =
      decodeChunks (fun _ => none) (fun _ _ => none) [] "avalanche"
        (((runFetchLoop fetchFirstFails 1 3000 10).getD (initState 1)).results.map
          (fun r => some (r.getD []))) ∧
    ((runFetchLoop fetchFirstFails 1 3000 10).getD (initState 1)).createTrace.Pairwise
      (fun a b => a.start < b.start) :=
  c5_partial_failures fetchFirstFails 1 3000 10
    ((runFetchLoop fetchFirstFails 1 3000 10).getD (initState 1)) rfl
    (fun _ => none) (fun _ _ => none) [] "avalanche"

/-- C2 — whatever the oracle outcomes (hence whatever order chunks
completed in and whichever chunks failed), a successful
`get_contract_events` returns its events sorted by
`(block_number, log_index)` ascending. -/
theorem c2_sorted_events (clients : String → Bool) (checksum : String → Option String)
    (fetch : Nat → Nat → ChunkResult) (sigHash : String → Option String)
    (procLog : String → RawLog → Option (String × List (String × PyVal)))
    (contractAddress : String) (fromBlock : Nat) (network : String)
    (contractAbi : List AbiItem) (head fuel : Nat) (events : List ContractEventEntity)
    (hrun : getContractEvents clients checksum fetch sigHash procLog contractAddress
      fromBlock network contractAbi head fuel = some events) :
    events.Pairwise (fun a b => eventLe a b = true) := by
  unfold getContractEvents at hrun
  split at hrun
  · split at hrun
    · cases hrun
    · dsimp only at hrun
      split at hrun
      · rcases Option.map_eq_some'.mp hrun with ⟨st, hst, hev⟩
        rw [← hev]
        exact pairwise_sortEvents eventLe eventLe_trans eventLe_total _
      · cases hrun
  · cases hrun

/-- C2 witness — a concrete successful query whose single chunk comes
back out of order is returned sorted. -/
theorem c2_sorted_events_witness :
    ((getContractEvents clientsAll checksumId fetchUnordered (fun _ => none)
        (fun _ _ => none) "0xc2" 1 "avalanche" [] 1 3).getD []).Pairwise
      (fun a b => eventLe a b = true) :=
  c2_sorted_events clientsAll checksumId fetchUnordered (fun _ => none)
    (fun _ _ => none) "0xc2" 1 "avalanche" [] 1 3
    ((getContractEvents clientsAll checksumId fetchUnordered (fun _ => none)
      (fun _ _ => none) "0xc2" 1 "avalanche" [] 1 3).getD []) rfl

/-- C3 — the claim as frozen is refuted: on a log whose first topic
matches no known event signature hash, the produced record's event
name is the sentinel `UnknownEvent`, not the claimed `unknown` (the
fallback args shape, however, is as claimed). -/
theorem c3_unknown_sentinel_counterexample :
    findMatch (fun _ => none) "0xbeef" [] = none ∧
    (decodeLog (fun _ => none) (fun _ _ => none) [] "avalanche" c3Log).event_name =
      "UnknownEvent" ∧
    ¬((decodeLog (fun _ => none) (fun _ _ => none) [] "avalanche" c3Log).event_name =
      "unknown") := by
  refine ⟨rfl, rfl, by decide⟩

/-- C3 (amended) — a raw log with no topics, or whose first topic
matches no known event signature hash of the resolved interface, is
decoded to a record whose event name is the sentinel `UnknownEvent` and
whose args mapping holds exactly the two keys `topics` (the list of
topic hex strings) and `data` (the data hex string, `0x` when the data
is empty). -/
theorem c3_unknown_fallback (sigHash : String → Option String)
    (procLog : String → RawLog → Option (String × List (String × PyVal)))
    (eventAbis : List AbiItem) (network : String) (log : RawLog)
    (h : log.topics = [] ∨
      ∃ t0 rest, log.topics = t0 :: rest ∧ findMatch sigHash t0 eventAbis = none) :
    (decodeLog sigHash procLog eventAbis network log).event_name = "UnknownEvent" ∧
    (decodeLog sigHash procLog eventAbis network log).args.map Prod.fst =
      ["topics", "data"] ∧
    (decodeLog sigHash procLog eventAbis network log).args =
      [("topics", .vList (log.topics.map .vStr)),
       ("data", .vStr (if log.data = "" then "0x" else log.data))] := by
  have hargs : (decodeLog sigHash procLog eventAbis network log).event_name = "UnknownEvent" ∧
      (decodeLog sigHash procLog eventAbis network log).args = fallbackArgs log := by
    unfold decodeLog
    rcases h with h0 | ⟨t0, rest, ht, hf⟩
    · rw [h0]
      exact ⟨rfl, rfl⟩
    · simp only [ht]
      rw [hf]
      exact ⟨rfl, rfl⟩
  refine ⟨hargs.1, ?_, by rw [hargs.2]; rfl⟩
  rw [hargs.2]
  rfl

/-- C3 witness — the amended theorem applied to the concrete
unmatched-topic log and to a topicless log. -/
theorem c3_unknown_fallback_witness :
    (decodeLog (fun _ => none) (fun _ _ => none) [] "avalanche" c3Log).event_name =
      "UnknownEvent" ∧
    (decodeLog (fun _ => none) (fun _ _ => none) [] "avalanche" c3Log).args.map Prod.fst =
      ["topics", "data"] ∧
    (decodeLog (fun _ => none) (fun _ _ => none) [] "avalanche" c3Log).args =
      [("topics", .vList (c3Log.topics.map .vStr)),
       ("data", .vStr (if c3Log.data = "" then "0x" else c3Log.data))] :=
  c3_unknown_fallback (fun _ => none) (fun _ _ => none) [] "avalanche" c3Log
    (Or.inr ⟨"0xbeef", [], rfl, rfl⟩)

theorem markerAppears_iff_contains (abi : List AbiItem) (pf : String) :
    (functionNames abi).contains pf = true ↔ markerAppears abi pf := by
  simp only [markerAppears, functionNames, List.contains_iff_exists_mem_beq,
    List.mem_filterMap]
  constructor
  · rintro ⟨x, ⟨item, hitem, hx⟩, hbeq⟩
    split at hx
    · next hty =>
      refine ⟨item, hitem, hty, ?_⟩
      rw [hx]
      have : pf = x := by simpa [beq_iff_eq] using hbeq
      rw [this]
    · cases hx
  · rintro ⟨item, hitem, hty, hname⟩
    refine ⟨pf, ⟨item, hitem, ?_⟩, by simp⟩
    rw [if_pos hty, hname]

/-- C6 — the proxy classifier answers true exactly when at least 2 of
the 3 marker names `implementation`, `upgradeTo`, `upgradeToAndCall`
appear among the interface's function entries; in particular the
two-marker interface is a proxy and the one-marker interface is not. -/
theorem c6_proxy_heuristic :
    (∀ abi : List AbiItem, isProxyAbi abi = true ↔ 2 ≤ markerCount abi) ∧
    isProxyAbi proxyTwoMarkers = true ∧
    isProxyAbi proxyOneMarker = false := by
  refine ⟨?_, by decide, by decide⟩
  intro abi
  unfold isProxyAbi markerCount
  rw [show (proxyFunctions.filter (fun pf => (functionNames abi).contains pf)) =
      (proxyFunctions.filter (fun pf => decide (markerAppears abi pf))) from ?_]
  · simp
  · refine List.filter_congr ?_
    intro pf _
    rw [Bool.eq_iff_iff, decide_eq_true_eq, markerAppears_iff_contains]

/-- C6 witness — the general equivalence applied to the two-marker
interface. -/
theorem c6_proxy_heuristic_witness :
    isProxyAbi proxyTwoMarkers = true ∧ 2 ≤ markerCount proxyTwoMarkers :=
  ⟨c6_proxy_heuristic.2.1, (c6_proxy_heuristic.1 proxyTwoMarkers).mp c6_proxy_heuristic.2.1⟩

theorem fetchFromExplorer_fails_empty
    (http : String → String → String → ExplorerOutcome)
    (parseAbi : String → Option PyVal)
    (network contractAddress apiKey : String)
    (hfail : explorerFetchFails http parseAbi network contractAddress apiKey) :
    fetchFromExplorer http parseAbi contractAddress network apiKey = .vList [] := by
  unfold fetchFromExplorer
  rcases hfail with hn | ⟨url, hurl, hcase⟩
  · rw [hn]
  · rw [hurl]
    dsimp only
    rcases hcase with he | ⟨status, body, hr, hs⟩ | hr | ⟨env, hr, hcase2⟩
    · rw [he]
    · rw [hr]
      simp only
      rw [if_neg hs]
    · rw [hr]
      simp
    · rw [hr]
      simp only [if_true]
      rcases hcase2 with hst | hres | hres | ⟨s, hres, hparse⟩
      · rw [if_neg (by simp [hst])]
      · rw [if_neg (by simp [resultTruthy, hres])]
      · rw [if_neg (by simp [resultTruthy, hres])]
      · by_cases hst : env.status = some "1"
        · by_cases hs0 : s = ""
          · rw [if_neg (by simp [resultTruthy, hres, hs0])]
          · rw [if_pos ⟨hst, by simp [resultTruthy, hres, hs0]⟩, hres]
            simp [hparse]
        · rw [if_neg (by tauto)]

/-- C7 — the claim as frozen is refuted: a success envelope whose
result payload parses to a JSON value that is not an interface list
(here the JSON number 5, a parsable but malformed payload) is returned
by `_fetch_from_explorer` as-is — not as an empty interface list — and
`get_abi` then raises past the resolver (`TypeError` when
`_is_proxy_abi` iterates the truthy non-list value). -/
theorem c7_resolver_raises_counterexample :
    fetchFromExplorer httpIntPayload parseIntPayload "0xdead" "avalanche" "key" =
      .vInt 5 ∧
    (getAbi httpIntPayload parseIntPayload proxyOraclesTrivial emptyCache
      "0xdead" "avalanche" "key").1 = .error () ∧
    ¬(fetchFromExplorer httpIntPayload parseIntPayload "0xdead" "avalanche" "key" =
      .vList []) :=
  ⟨rfl, rfl, fun h => nomatch h⟩

/-- The fetch path of `get_abi` under a failing explorer lookup: the
payload is the empty list, which is falsy, so the proxy check is
skipped, nothing is cached, and the empty list is returned without
raising. -/
theorem getAbiFetch_fails (http : String → String → String → ExplorerOutcome)
    (parseAbi : String → Option PyVal) (o : ProxyOracles) (cache : Cache)
    (contractAddress network apiKey : String)
    (hfail : explorerFetchFails http parseAbi network contractAddress apiKey) :
    getAbiFetch http parseAbi o cache contractAddress network apiKey =
      (.ok (.vList []), cache) := by
  have hempty := fetchFromExplorer_fails_empty http parseAbi network contractAddress
    apiKey hfail
  unfold getAbiFetch
  dsimp only
  rw [hempty]
  rfl

/-- C7 (amended) — when the interface cache has no truthy cached list
for the key and the explorer lookup fails in any of the enumerated
ways — no configured endpoint, network error, non-success HTTP status,
unparsable body, failure envelope, empty/missing result, or a result
payload whose JSON parse raises — the resolver returns the empty
interface list through `get_abi` without raising (`Except.ok`),
leaving the cache unchanged, and `_fetch_from_explorer` itself returns
the empty list.  (A result payload that parses successfully to a
truthy non-list value escapes this guarantee: the resolver raises, as
the counterexample shows; a falsy non-list payload is returned
as-is.) -/
theorem c7_resolver_degrades (http : String → String → String → ExplorerOutcome)
    (parseAbi : String → Option PyVal) (o : ProxyOracles) (cache : Cache)
    (contractAddress network apiKey : String)
    (hfail : explorerFetchFails http parseAbi network contractAddress apiKey)
    (hmiss : ∀ v, cache (abiCacheKey network contractAddress) = some (.abiVal v) →
      (pyTruthy v && pyIsList v) = false) :
    fetchFromExplorer http parseAbi contractAddress network apiKey = .vList [] ∧
    getAbi http parseAbi o cache contractAddress network apiKey =
      (.ok (.vList []), cache) := by
  have hempty := fetchFromExplorer_fails_empty http parseAbi network contractAddress
    apiKey hfail
  have hfetch := getAbiFetch_fails http parseAbi o cache contractAddress network
    apiKey hfail
  refine ⟨hempty, ?_⟩
  unfold getAbi
  split
  · next v heq =>
    rw [hmiss v heq]
    exact hfetch
  · exact hfetch

/-- C7 witness — the amended theorem applied to a concrete
network-error lookup on a supported network with an empty cache. -/
theorem c7_resolver_degrades_witness :
    fetchFromExplorer httpAlwaysErr parseAbiNone "0xdead" "avalanche" "key" =
      .vList [] ∧
    getAbi httpAlwaysErr parseAbiNone proxyOraclesTrivial emptyCache
      "0xdead" "avalanche" "key" = (.ok (.vList []), emptyCache) :=
  c7_resolver_degrades httpAlwaysErr parseAbiNone proxyOraclesTrivial emptyCache
    "0xdead" "avalanche" "key"
    (Or.inr ⟨"https://api.snowtrace.io/api", rfl, Or.inl rfl⟩)
    (fun _ h => nomatch h)

/-- Reading back the key just written. -/
theorem cacheSet_self (c : Cache) (k : String) (v : CacheVal) :
    cacheSet c k v k = some v := by
  simp [cacheSet]


/-- Hit equation: with the client resolved and a response cached under
the key, the call returns it from the cache and writes nothing. -/
theorem getEventsUseCase_hit (w : EventsWorld) (cache : Cache)
    (contractAddress : String) (fromBlock : Nat) (network : String) (fuel : Nat)
    (r : EventsResponse) (hcl : w.clients network = true)
    (hck : cache (eventsCacheKey network contractAddress fromBlock w.headBlock) =
      some (.eventsVal r)) :
    getEventsUseCase w cache contractAddress fromBlock network fuel =
      (some (r, true), cache) := by
  unfold getEventsUseCase
  rw [if_pos hcl, hck]

/-- The miss path stores the response it returns under the
decoded-response key, as its final cache write. -/
theorem getEventsCompute_caches (w : EventsWorld) (cache : Cache)
    (contractAddress : String) (fromBlock : Nat) (network : String) (fuel : Nat)
    (r : EventsResponse) (b : Bool)
    (h : (getEventsCompute w cache contractAddress fromBlock network fuel).1 =
      some (r, b)) :
    (getEventsCompute w cache contractAddress fromBlock network fuel).2
      (eventsCacheKey network contractAddress fromBlock w.headBlock) =
      some (.eventsVal r) := by
  unfold getEventsCompute at h ⊢
  dsimp only at h ⊢
  rcases hab : getAbi w.http w.parseAbi (proxyOraclesOf w) cache contractAddress
      network (if network = "avalanche" then w.snowtraceApiKey else w.etherscanApiKey)
    with ⟨abiRes, c1⟩
  rw [hab] at h
  cases abiRes with
  | error e => simp at h
  | ok abiPayload =>
    dsimp only at h ⊢
    rcases hconv : pyAbiToItems abiPayload with _ | abi
    · rw [hconv] at h
      simp at h
    · rw [hconv] at h
      dsimp only at h ⊢
      rcases hev : getContractEvents w.clients w.checksum w.fetch w.sigHash w.procLog
          contractAddress fromBlock network abi w.headBlock fuel with _ | events
      · rw [hev] at h
        simp at h
      · rw [hev] at h
        dsimp only at h ⊢
        simp only [Option.some.injEq, Prod.mk.injEq] at h
        rw [← h.1]
        exact cacheSet_self _ _ _

/-- Miss equations: with no cached response (or a falsy cached value)
the call runs the miss path. -/
theorem getEventsUseCase_miss (w : EventsWorld) (cache : Cache)
    (contractAddress : String) (fromBlock : Nat) (network : String) (fuel : Nat)
    (hcl : w.clients network = true)
    (hck : cache (eventsCacheKey network contractAddress fromBlock w.headBlock) = none ∨
      ∃ v, cache (eventsCacheKey network contractAddress fromBlock w.headBlock) =
        some (.abiVal v) ∧ pyTruthy v = false) :
    getEventsUseCase w cache contractAddress fromBlock network fuel =
      getEventsCompute w cache contractAddress fromBlock network fuel := by
  unfold getEventsUseCase
  rw [if_pos hcl]
  rcases hck with hck | ⟨v, hck, hv⟩
  · rw [hck]
  · rw [hck]
    dsimp only
    rw [hv]
    rfl

/-- Wrong-shape equation: a truthy cached value that is not a response
dump makes the model-validation step raise. -/
theorem getEventsUseCase_badshape (w : EventsWorld) (cache : Cache)
    (contractAddress : String) (fromBlock : Nat) (network : String) (fuel : Nat)
    (hcl : w.clients network = true)
    (hck : (∃ v, cache (eventsCacheKey network contractAddress fromBlock w.headBlock) =
        some (.abiVal v) ∧ pyTruthy v = true) ∨
      ∃ l, cache (eventsCacheKey network contractAddress fromBlock w.headBlock) =
        some (.logsVal l)) :
    getEventsUseCase w cache contractAddress fromBlock network fuel = (none, cache) := by
  unfold getEventsUseCase
  rw [if_pos hcl]
  rcases hck with ⟨v, hck, hv⟩ | ⟨l, hck⟩
  · rw [hck]
    dsimp only
    rw [hv]
    rfl
  · rw [hck]

/-- A successful `GetEvents` call leaves its own response stored under
the decoded-response cache key (either it was already there and the
call was a hit, or the call's final action stored it), and its cache
key depends only on the network, address, from-block and head. -/
theorem getEventsUseCase_caches (w : EventsWorld) (cache : Cache)
    (contractAddress : String) (fromBlock : Nat) (network : String) (fuel : Nat)
    (r : EventsResponse) (b : Bool)
    (h1 : (getEventsUseCase w cache contractAddress fromBlock network fuel).1 =
      some (r, b)) :
    w.clients network = true ∧
    (getEventsUseCase w cache contractAddress fromBlock network fuel).2
      (eventsCacheKey network contractAddress fromBlock w.headBlock) =
      some (.eventsVal r) := by
  have hcl : w.clients network = true := by
    by_contra hcl
    rw [Bool.not_eq_true] at hcl
    unfold getEventsUseCase at h1
    rw [if_neg (by simp [hcl])] at h1
    simp at h1
  refine ⟨hcl, ?_⟩
  rcases hck : cache (eventsCacheKey network contractAddress fromBlock w.headBlock) with
    _ | v
  · rw [getEventsUseCase_miss w cache contractAddress fromBlock network fuel hcl
      (Or.inl hck)] at h1 ⊢
    exact getEventsCompute_caches w cache contractAddress fromBlock network fuel r b h1
  · cases v with
    | eventsVal r2 =>
      rw [getEventsUseCase_hit w cache contractAddress fromBlock network fuel r2 hcl hck]
        at h1 ⊢
      simp only [Option.some.injEq, Prod.mk.injEq] at h1
      dsimp only
      rw [hck, h1.1]
    | abiVal v =>
      rcases Bool.eq_false_or_eq_true (pyTruthy v) with hv | hv
      · rw [getEventsUseCase_badshape w cache contractAddress fromBlock network fuel hcl
          (Or.inl ⟨v, hck, hv⟩)] at h1
        simp at h1
      · rw [getEventsUseCase_miss w cache contractAddress fromBlock network fuel hcl
          (Or.inr ⟨v, hck, hv⟩)] at h1 ⊢
        exact getEventsCompute_caches w cache contractAddress fromBlock network fuel r b h1
    | logsVal l =>
      rw [getEventsUseCase_badshape w cache contractAddress fromBlock network fuel hcl
        (Or.inr ⟨l, hck⟩)] at h1
      simp at h1

/-- C8 — with the world (chain head, logs, explorer responses)
unchanged, a second identical `GetEvents` call right after a
successful first call returns the very same response, and it is served
from the decoded-response cache (the instrumentation flag is `true`):
the key derived from `(network, address, fromBlock, headBlock)` is the
same for both calls and the first call left the response stored under
it. -/
theorem c8_idempotent_cached (w : EventsWorld) (cache : Cache)
    (contractAddress : String) (fromBlock : Nat) (network : String) (fuel : Nat)
    (r : EventsResponse) (b : Bool)
    (h1 : (getEventsUseCase w cache contractAddress fromBlock network fuel).1 =
      some (r, b)) :
    (getEventsUseCase w (getEventsUseCase w cache contractAddress fromBlock network fuel).2
      contractAddress fromBlock network fuel).1 = some (r, true) := by
  obtain ⟨hcl, hstore⟩ :=
    getEventsUseCase_caches w cache contractAddress fromBlock network fuel r b h1
  rw [getEventsUseCase_hit w _ contractAddress fromBlock network fuel r hcl hstore]

/-- C8 witness — the theorem applied after a concrete first call
against the empty cache: the second call returns the same response,
served from the cache. -/
theorem c8_idempotent_cached_witness :
    (getEventsUseCase trivialWorld
      (getEventsUseCase trivialWorld emptyCache "0xaa" 1 "avalanche" 3).2
      "0xaa" 1 "avalanche" 3).1 = some (c8Response, true) :=
  c8_idempotent_cached trivialWorld emptyCache "0xaa" 1 "avalanche" 3 c8Response false rfl

set_option maxRecDepth 200000 in
/-- C9 — the claim as frozen is refuted: the adaptive logic only runs
when a full batch of 100 chunks completes, so over a 61-chunk span
whose first 60 chunks are empty and whose last chunk is non-empty, no
batch completes inside the loop (the single final batch never touches
the multiplier), every chunk is created with multiplier 1, and the
multiplier is 1 — not at least 2 — at the moment the non-empty chunk
is fetched. -/
theorem c9_stride_counterexample :
    (runFetchLoop c9CexFetch 1 122000 65).isSome = true ∧
    ((runFetchLoop c9CexFetch 1 122000 65).getD (initState 1)).results.length = 61 ∧
    (((runFetchLoop c9CexFetch 1 122000 65).getD (initState 1)).results.take 60).all
      (fun r => r = some []) = true ∧
    ((runFetchLoop c9CexFetch 1 122000 65).getD (initState 1)).results.get? 60 =
      some (some [c9CexLog]) ∧
    ((runFetchLoop c9CexFetch 1 122000 65).getD (initState 1)).createTrace.all
      (fun e => e.skip = 1) = true ∧
    ((runFetchLoop c9CexFetch 1 122000 65).getD (initState 1)).batchTrace = [] := by
  refine ⟨by decide, by decide, by decide, by decide, by decide, by decide⟩

set_option maxRecDepth 1000000 in
set_option maxHeartbeats 2000000 in
/-- C9 (amended) — the stride adapts only at completed batches of 100
chunks, so 60 empty chunks never change the multiplier; given 100
consecutive empty chunks forming one completed batch (which pushes the
empty count to 100 ≥ 50 and doubles the multiplier to 2) followed by a
batch containing one non-empty chunk, the multiplier is 2 (≥ 2) when
the non-empty chunk is created and fetched, and it resets to 1 when
the batch containing that chunk completes. -/
theorem c9_stride_amended :
    (runFetchLoop c9HitFetch 1 602000 210).isSome = true ∧
    ((runFetchLoop c9HitFetch 1 602000 210).getD (initState 1)).createTrace.get? 100 =
      some ⟨200001, 202000, 2⟩ ∧
    ((runFetchLoop c9HitFetch 1 602000 210).getD (initState 1)).results.get? 100 =
      some (some [c9HitLog]) ∧
    (((runFetchLoop c9HitFetch 1 602000 210).getD (initState 1)).results.take 100).all
      (fun r => r = some []) = true ∧
    ((runFetchLoop c9HitFetch 1 602000 210).getD (initState 1)).batchTrace =
      [⟨false, 2, 100⟩, ⟨true, 1, 0⟩] := by
  refine ⟨by decide, by decide, by decide, by decide, by decide⟩

/-- C10 — `CacheService.get` and `CacheService.set` translate every
substrate failure into a miss / a `False` report: a raised Redis read,
a missing or falsy stored value, or a raised JSON parse make `get`
return `None`; a raised JSON dump or a raised `setex` make `set`
return `False`; and a successful `get`/`set` is exactly a fully
successful substrate interaction.  Neither operation has a raising
path of its own (both are total functions into `Option` / `Bool`). -/
theorem c10_cache_service_degrades (m : RedisModel) (key : String)
    (value : PyVal) (ttl : Nat) :
    (m.rget key = .err → cacheServiceGet m key = none) ∧
    (m.rget key = .ok none → cacheServiceGet m key = none) ∧
    (∀ s, m.rget key = .ok (some s) → m.jloads s = none → cacheServiceGet m key = none) ∧
    (∀ v, cacheServiceGet m key = some v →
      ∃ s, m.rget key = .ok (some s) ∧ s ≠ "" ∧ m.jloads s = some v) ∧
    (m.jdumps value = none → cacheServiceSet m key value ttl = false) ∧
    (∀ s, m.jdumps value = some s → m.rsetex key ttl s = .err →
      cacheServiceSet m key value ttl = false) ∧
    (cacheServiceSet m key value ttl = true ↔
      ∃ s, m.jdumps value = some s ∧ m.rsetex key ttl s = .ok ()) := by
  refine ⟨?_, ?_, ?_, ?_, ?_, ?_, ?_⟩
  · intro h
    unfold cacheServiceGet
    rw [h]
  · intro h
    unfold cacheServiceGet
    rw [h]
  · intro s h hl
    unfold cacheServiceGet
    rw [h]
    dsimp only
    split
    · rfl
    · exact hl
  · intro v h
    unfold cacheServiceGet at h
    rcases hr : m.rget key with val | _
    · rw [hr] at h
      cases val with
      | none => simp at h
      | some s =>
        dsimp only at h
        split at h
        · cases h
        · next hs => exact ⟨s, rfl, hs, h⟩
    · rw [hr] at h
      cases h
  · intro h
    unfold cacheServiceSet
    rw [h]
  · intro s h hs
    unfold cacheServiceSet
    rw [h]
    dsimp only
    rw [hs]
  · unfold cacheServiceSet
    rcases hd : m.jdumps value with _ | s
    · simp
    · dsimp only
      rcases hx : m.rsetex key ttl s with u | _
      · cases u
        exact ⟨fun _ => ⟨s, rfl, hx⟩, fun _ => rfl⟩
      · simp [hx]

/-- C10 witness — against a completely unreachable substrate, a lookup
is a miss and a store reports `False`, neither raising. -/
theorem c10_cache_service_degrades_witness :
    cacheServiceGet redisDown "balance:avalanche:0xaa:5" = none ∧
    cacheServiceSet redisDown "balance:avalanche:0xaa:5" .vNone 3600 = false :=
  ⟨(c10_cache_service_degrades redisDown "balance:avalanche:0xaa:5" .vNone 3600).1 rfl,
    (c10_cache_service_degrades redisDown "balance:avalanche:0xaa:5" .vNone 3600).2.2.2.2.1 rfl⟩
